import Mathlib

/-!
Verification of the I-beam moment-of-inertia / sensitivity / gradient-ascent
script (`src/example.py`) against its natural-language specification.

The numeric type is `ℚ`: the script computes with IEEE floats, and the spec
phrases its equalities "to within floating-point tolerance"; exact rational
arithmetic realises the ideal real-number semantics those tolerances
approximate.

Parameter vectors follow the source's array layout: index 0 = depth,
1 = width, 2 = t_web, 3 = t_flange.
-/

namespace AutodiffExample

abbrev Vec4 := Fin 4 → ℚ

/-! ### Forward-mode automatic differentiation

The script differentiates through the third-party `auto_diff` package, whose
code is not part of this repository. -/

/-- Modelled from the spec: the `auto_diff` library used by
`compute_area_moment_of_inertia_sensitivities` is external and missing from
the sources; per spec §4.2 it is forward-mode automatic differentiation,
represented here as a dual number carrying a value together with a derivative
with respect to each of the four inputs. -/
structure Dual where
  val : ℚ
  der : Vec4

/-- A constant, with zero derivative (spec §4.2). -/
def Dual.const (c : ℚ) : Dual := ⟨c, fun _ => 0⟩

/-- Sum rule (spec §4.2). -/
def Dual.add (a b : Dual) : Dual := ⟨a.val + b.val, fun i => a.der i + b.der i⟩

/-- Difference rule (spec §4.2). -/
def Dual.sub (a b : Dual) : Dual := ⟨a.val - b.val, fun i => a.der i - b.der i⟩

/-- Product rule (spec §4.2). -/
def Dual.mul (a b : Dual) : Dual :=
  ⟨a.val * b.val, fun i => a.der i * b.val + a.val * b.der i⟩

/-- Division by a constant (the only division the formula performs). -/
def Dual.divc (a : Dual) (c : ℚ) : Dual := ⟨a.val / c, fun i => a.der i / c⟩

/-- Natural-number power, as iterated products (power rule for the
formula's integer exponent 3, spec §4.2). -/
def Dual.pow (a : Dual) : ℕ → Dual
  | 0 => Dual.const 1
  | n + 1 => a.mul (a.pow n)

/-- Input `j`, seeded with a unit directional derivative in its own axis
(spec §4.2). -/
def Dual.seed (j : Fin 4) (v : ℚ) : Dual := ⟨v, fun i => if i = j then 1 else 0⟩

/-! ### The moment-of-inertia formula (`compute_area_moment_of_inertia`) -/

/-- `compute_area_moment_of_inertia` from the source: I-beam area moment of
inertia from depth, width, web thickness and flange thickness. -/
def compute_area_moment_of_inertia (depth width t_web t_flange : ℚ) : ℚ :=
  let depth_web := depth - 2 * t_flange
  t_web * depth_web ^ 3 / 12 + (width / 12) * (depth ^ 3 - depth_web ^ 3)

/-- The same formula, computed on dual numbers exactly as the source
evaluates it under the `auto_diff` context. -/
def compute_area_moment_of_inertia_dual (depth width t_web t_flange : Dual) : Dual :=
  let depth_web := depth.sub ((Dual.const 2).mul t_flange)
  ((t_web.mul (depth_web.pow 3)).divc 12).add
    ((width.divc 12).mul ((depth.pow 3).sub (depth_web.pow 3)))

/-- `compute_area_moment_of_inertia_ad` from the source: the array-indexed
wrapper fed to the differentiation context. -/
def compute_area_moment_of_inertia_ad (x : Fin 4 → Dual) : Dual :=
  compute_area_moment_of_inertia_dual (x 0) (x 1) (x 2) (x 3)

/-- `compute_area_moment_of_inertia_sensitivities` from the source: value of
the formula together with the flattened list of the four derivatives, in
input order. -/
def compute_area_moment_of_inertia_sensitivities
    (depth width t_web t_flange : ℚ) : ℚ × Vec4 :=
  let r := compute_area_moment_of_inertia_ad
    ![Dual.seed 0 depth, Dual.seed 1 width, Dual.seed 2 t_web, Dual.seed 3 t_flange]
  (r.val, r.der)

end AutodiffExample

namespace AutodiffExample

/-- The moment of inertia at a parameter vector. -/
def moiAt (x : Vec4) : ℚ :=
  (compute_area_moment_of_inertia_sensitivities (x 0) (x 1) (x 2) (x 3)).1

/-- The automatic-differentiation gradient at a parameter vector. -/
def gradAt (x : Vec4) : Vec4 :=
  (compute_area_moment_of_inertia_sensitivities (x 0) (x 1) (x 2) (x 3)).2

lemma sensitivities_val (d w tw tf : ℚ) :
    (compute_area_moment_of_inertia_sensitivities d w tw tf).1 =
      compute_area_moment_of_inertia d w tw tf := by
  simp [compute_area_moment_of_inertia_sensitivities, compute_area_moment_of_inertia_ad,
    compute_area_moment_of_inertia_dual, compute_area_moment_of_inertia,
    Dual.add, Dual.sub, Dual.mul, Dual.divc, Dual.pow, Dual.const, Dual.seed]
  ring

lemma sensitivities_der (d w tw tf : ℚ) :
    (compute_area_moment_of_inertia_sensitivities d w tw tf).2 =
      ![tw * (d - 2 * tf) ^ 2 / 4 + (w / 4) * (d ^ 2 - (d - 2 * tf) ^ 2),
        (d ^ 3 - (d - 2 * tf) ^ 3) / 12,
        (d - 2 * tf) ^ 3 / 12,
        -(tw * (d - 2 * tf) ^ 2) / 2 + (w / 2) * (d - 2 * tf) ^ 2] := by
  funext i
  fin_cases i <;>
    · simp [compute_area_moment_of_inertia_sensitivities, compute_area_moment_of_inertia_ad,
        compute_area_moment_of_inertia_dual,
        Dual.add, Dual.sub, Dual.mul, Dual.divc, Dual.pow, Dual.const, Dual.seed]
      ring

/-! ### The projected gradient-ascent optimizer (`run_gradient_ascent`) -/

/-- One row appended to the export lists per iteration: the source records
the iteration index, the pre-step depth and width, and the moment of inertia
at the pre-step parameters. -/
structure IterationRecord where
  iteration : ℕ
  depth : ℚ
  width : ℚ
  moi : ℚ

/-- The optimizer's configuration: the learning rate and a `[min, max]`
bound per parameter. -/
structure AscentConfig where
  learning_rate : ℚ
  bounds : Fin 4 → ℚ × ℚ

/-- `np.clip(v, lo, hi) = min(max(v, lo), hi)`, componentwise. -/
def clip (v lo hi : ℚ) : ℚ := min (max v lo) hi

/-- `np.allclose`'s default relative tolerance `rtol = 1e-5`. -/
def rtol : ℚ := 1 / 100000

/-- `np.allclose`'s default absolute tolerance `atol = 1e-8`. -/
def atol : ℚ := 1 / 100000000

/-- `np.allclose(a, b)`: every component satisfies
`|a i - b i| ≤ atol + rtol * |b i|`. -/
def allclose (a b : Vec4) : Bool :=
  decide (∀ i : Fin 4, |a i - b i| ≤ atol + rtol * |b i|)

/-- One optimizer step: ascend along the gradient scaled by the learning
rate, then project each component into its `[min, max]` bound. -/
def newParams (cfg : AscentConfig) (x : Vec4) : Vec4 :=
  fun j => clip (x j + cfg.learning_rate * gradAt x j) (cfg.bounds j).1 (cfg.bounds j).2

/-- The loop body of `run_gradient_ascent`: record the pre-step parameters
and moment of inertia, take the projected ascent step, stop if
`np.allclose` holds between the projected and the pre-step vector, and
otherwise continue with the projected vector; the fuel argument is the
remaining iteration budget. -/
def ascentLoop (cfg : AscentConfig) : Vec4 → ℕ → ℕ → List IterationRecord
  | _, _, 0 => []
  | x, i, n + 1 =>
    let r : IterationRecord := ⟨i, x 0, x 1, moiAt x⟩
    let x2 := newParams cfg x
    if allclose x2 x then [r] else r :: ascentLoop cfg x2 (i + 1) n

/-- The constants hard-coded in `run_gradient_ascent`: learning rate 1e-4,
depth bounded by `[100, 200]`, width by `[50, 100]`, web and flange
thickness fixed at 5. -/
def defaultConfig : AscentConfig :=
  ⟨1 / 10000, ![(100, 200), (50, 100), (5, 5), (5, 5)]⟩

/-- `run_gradient_ascent` from the source: 100 iterations maximum, starting
from depth 100, width 50, web and flange thickness 5; the result is the
ordered list of recorded iterations (the CSV export is out of scope). -/
def run_gradient_ascent : List IterationRecord :=
  ascentLoop defaultConfig ![100, 50, 5, 5] 0 100

/-! ### The depth sweep (`sweep_depths`) -/

/-- One output row of the sweep: depth, moment of inertia, and the four
sensitivities in parameter order. -/
structure SweepRow where
  depth : ℚ
  i_xx : ℚ
  sens_depth : ℚ
  sens_width : ℚ
  sens_t_web : ℚ
  sens_t_flange : ℚ

/-- The sweep's per-depth computation: evaluate the sensitivities at the
given depth and the fixed width and thicknesses and lay the results out in
the source's column order. -/
def sweepRow (width t_web t_flange depth : ℚ) : SweepRow :=
  let r := compute_area_moment_of_inertia_sensitivities depth width t_web t_flange
  ⟨depth, r.1, r.2 0, r.2 1, r.2 2, r.2 3⟩

/-- The sweep loop over an arbitrary depth sequence. -/
def sweepRows (depths : List ℚ) (width t_web t_flange : ℚ) : List SweepRow :=
  depths.map (sweepRow width t_web t_flange)

/-- `np.arange(100, 201, 10)`: the depths 100, 110, ..., 200. -/
def sweepDepthsInput : List ℚ := (List.range 11).map (fun k => 100 + 10 * k)

/-- `sweep_depths` from the source: sweep the fixed depth range with
width 40, web thickness 5 and flange thickness 5 (the CSV export is out of
scope). -/
def sweep_depths : List SweepRow := sweepRows sweepDepthsInput 40 5 5

/-! ### Small concrete configurations used by the witnesses -/

/-- The all-zero parameter vector. -/
def zeroVec : Vec4 := fun _ => 0

/-- A degenerate configuration: zero learning rate, every bound `[0, 0]`. -/
def cfg0 : AscentConfig := ⟨0, fun _ => (0, 0)⟩

/-- The all-ones parameter vector. -/
def onesVec : Vec4 := fun _ => 1

/-- A wide-open configuration: learning rate 1, every bound `[0, 1000]`. -/
def cfgW : AscentConfig := ⟨1, fun _ => (0, 1000)⟩

/-- The default configuration with the depth additionally fixed at 100
(`min = max = 100`). -/
def cfgF : AscentConfig :=
  ⟨1 / 10000, ![(100, 100), (50, 100), (5, 5), (5, 5)]⟩

/-! ### Helper lemmas about `clip`, `allclose` and `ascentLoop` -/

lemma clip_le_hi (v lo hi : ℚ) : clip v lo hi ≤ hi := min_le_right _ _

lemma lo_le_clip (v lo hi : ℚ) (h : lo ≤ hi) : lo ≤ clip v lo hi :=
  le_min (le_max_right _ _) h

lemma clip_fixed (v c : ℚ) : clip v c c = c :=
  min_eq_right (le_max_right _ _)

lemma clip_of_hi_le (v lo hi : ℚ) (h : hi ≤ v) : clip v lo hi = hi :=
  min_eq_right (le_trans h (le_max_left _ _))

lemma allclose_iff (a b : Vec4) :
    allclose a b = true ↔ ∀ i : Fin 4, |a i - b i| ≤ atol + rtol * |b i| := by
  simp [allclose]

lemma ascentLoop_succ (cfg : AscentConfig) (x : Vec4) (i n : ℕ) :
    ascentLoop cfg x i (n + 1) =
      if allclose (newParams cfg x) x then [⟨i, x 0, x 1, moiAt x⟩]
      else ⟨i, x 0, x 1, moiAt x⟩ :: ascentLoop cfg (newParams cfg x) (i + 1) n := rfl

lemma ascentLoop_length_le (cfg : AscentConfig) :
    ∀ (n : ℕ) (x : Vec4) (i : ℕ), (ascentLoop cfg x i n).length ≤ n := by
  intro n
  induction n with
  | zero => intro x i; simp [ascentLoop]
  | succ n ih =>
    intro x i
    rw [ascentLoop_succ]
    split
    · simp
    · simpa using ih (newParams cfg x) (i + 1)

lemma ascentLoop_length_pos (cfg : AscentConfig) (x : Vec4) (i n : ℕ) (h : 0 < n) :
    0 < (ascentLoop cfg x i n).length := by
  obtain ⟨m, rfl⟩ := Nat.exists_eq_add_of_lt h
  rw [Nat.zero_add, ascentLoop_succ]
  split <;> simp

lemma ascentLoop_get? (cfg : AscentConfig) :
    ∀ (n : ℕ) (x : Vec4) (i k : ℕ), k < (ascentLoop cfg x i n).length →
      (ascentLoop cfg x i n).get? k =
        some ⟨i + k, (newParams cfg)^[k] x 0, (newParams cfg)^[k] x 1,
          moiAt ((newParams cfg)^[k] x)⟩ := by
  intro n
  induction n with
  | zero => intro x i k hk; simp [ascentLoop] at hk
  | succ n ih =>
    intro x i k hk
    rw [ascentLoop_succ] at hk ⊢
    by_cases hc : allclose (newParams cfg x) x = true
    · rw [if_pos hc] at hk ⊢
      simp only [List.length_singleton] at hk
      have hk0 : k = 0 := by omega
      subst hk0
      simp
    · rw [if_neg hc] at hk ⊢
      match k with
      | 0 => simp
      | k + 1 =>
        simp only [List.length_cons, Nat.add_lt_add_iff_right] at hk
        simp only [List.get?_cons_succ]
        rw [ih (newParams cfg x) (i + 1) k hk, Function.iterate_succ_apply]
        have h2 : i + 1 + k = i + (k + 1) := by omega
        rw [h2]

lemma ascentLoop_forall (cfg : AscentConfig) (P : Vec4 → Prop) (Q : IterationRecord → Prop)
    (hstep : ∀ y, P y → P (newParams cfg y))
    (hrec : ∀ (k : ℕ) (y : Vec4), P y → Q ⟨k, y 0, y 1, moiAt y⟩) :
    ∀ (n : ℕ) (x : Vec4) (i : ℕ), P x → (ascentLoop cfg x i n).Forall Q := by
  intro n
  induction n with
  | zero => intro x i _; simp [ascentLoop, List.Forall]
  | succ n ih =>
    intro x i hx
    rw [ascentLoop_succ]
    split
    · simp only [List.Forall]
      exact hrec i x hx
    · rw [List.forall_cons]
      exact ⟨hrec i x hx, ih (newParams cfg x) (i + 1) (hstep x hx)⟩

lemma newParams_in_bounds (cfg : AscentConfig)
    (hwf : ∀ j : Fin 4, (cfg.bounds j).1 ≤ (cfg.bounds j).2) (y : Vec4) :
    ∀ j : Fin 4, (cfg.bounds j).1 ≤ newParams cfg y j ∧ newParams cfg y j ≤ (cfg.bounds j).2 :=
  fun j => ⟨lo_le_clip _ _ _ (hwf j), clip_le_hi _ _ _⟩

lemma ascentLoop_in_bounds (cfg : AscentConfig)
    (hwf : ∀ j : Fin 4, (cfg.bounds j).1 ≤ (cfg.bounds j).2)
    (n : ℕ) (x : Vec4) (i : ℕ)
    (hx : ∀ j : Fin 4, (cfg.bounds j).1 ≤ x j ∧ x j ≤ (cfg.bounds j).2) :
    (ascentLoop cfg x i n).Forall (fun r =>
      (cfg.bounds 0).1 ≤ r.depth ∧ r.depth ≤ (cfg.bounds 0).2 ∧
      (cfg.bounds 1).1 ≤ r.width ∧ r.width ≤ (cfg.bounds 1).2) :=
  ascentLoop_forall cfg
    (fun y => ∀ j : Fin 4, (cfg.bounds j).1 ≤ y j ∧ y j ≤ (cfg.bounds j).2) _
    (fun y _ => newParams_in_bounds cfg hwf y)
    (fun _ _ hy => ⟨(hy 0).1, (hy 0).2, (hy 1).1, (hy 1).2⟩) n x i hx

lemma sweepDepthsInput_eq :
    sweepDepthsInput = [100, 110, 120, 130, 140, 150, 160, 170, 180, 190, 200] := by
  norm_num [sweepDepthsInput, List.range_succ]

lemma sweepRow_i_xx (w tw tf d : ℚ) :
    (sweepRow w tw tf d).i_xx = compute_area_moment_of_inertia d w tw tf := by
  simp [sweepRow, sensitivities_val]

lemma sweepRow_sens_depth (w tw tf d : ℚ) :
    (sweepRow w tw tf d).sens_depth =
      tw * (d - 2 * tf) ^ 2 / 4 + (w / 4) * (d ^ 2 - (d - 2 * tf) ^ 2) := by
  simp [sweepRow, sensitivities_der]

/-! ### The claims -/

/-- C1: for every input, the forward-mode automatic-differentiation gradient
returned by `compute_area_moment_of_inertia_sensitivities` equals the
analytic partial derivatives of the closed-form formula
`I = tw·(d − 2tf)³/12 + (w/12)·(d³ − (d − 2tf)³)`, in the parameter order
depth, width, t_web, t_flange. -/
theorem C1_ad_gradient_matches_analytic_partials (d w tw tf : ℚ) :
    (compute_area_moment_of_inertia_sensitivities d w tw tf).2 =
      ![tw * (d - 2 * tf) ^ 2 / 4 + (w / 4) * (d ^ 2 - (d - 2 * tf) ^ 2),
        (d ^ 3 - (d - 2 * tf) ^ 3) / 12,
        (d - 2 * tf) ^ 3 / 12,
        -(tw * (d - 2 * tf) ^ 2) / 2 + (w / 2) * (d - 2 * tf) ^ 2] :=
  sensitivities_der d w tw tf

/-- C2: `compute_area_moment_of_inertia` returns
`tw·d_web³/12 + (w/12)·(d³ − d_web³)` with `d_web = d − 2·tf` for every
rational input (in particular it is total: no input is rejected), and at
`(200, 40, 5, 5)` it equals `5·190³/12 + (40/12)·(200³ − 190³)`. -/
theorem C2_formula_correct :
    (∀ d w tw tf : ℚ, compute_area_moment_of_inertia d w tw tf =
      tw * (d - 2 * tf) ^ 3 / 12 + (w / 12) * (d ^ 3 - (d - 2 * tf) ^ 3)) ∧
    compute_area_moment_of_inertia 200 40 5 5 =
      5 * 190 ^ 3 / 12 + (40 / 12) * (200 ^ 3 - 190 ^ 3) := by
  constructor
  · intro d w tw tf
    simp [compute_area_moment_of_inertia]
  · norm_num [compute_area_moment_of_inertia]

/-- C3 counterexample: with the depth sitting exactly at its upper bound and
the gradient pushing further outward (the learning-rate-scaled depth
gradient is positive), the optimizer does not converge at the first step:
the run produces at least two iteration records, because the width
component is still far from its own projected update. -/
theorem C3_counterexample_bound_does_not_trigger_convergence :
    (![200, 50, 5, 5] : Vec4) 0 = (defaultConfig.bounds 0).2 ∧
    0 < defaultConfig.learning_rate * gradAt ![200, 50, 5, 5] 0 ∧
    2 ≤ (ascentLoop defaultConfig ![200, 50, 5, 5] 0 100).length := by
  have hc : allclose (newParams defaultConfig ![200, 50, 5, 5]) ![200, 50, 5, 5] = false := by
    with_unfolding_all decide
  refine ⟨rfl, by with_unfolding_all decide, ?_⟩
  rw [show (100 : ℕ) = 99 + 1 from rfl, ascentLoop_succ, if_neg (by simp [hc])]
  have hp := ascentLoop_length_pos defaultConfig
    (newParams defaultConfig ![200, 50, 5, 5]) (0 + 1) 99 (by norm_num)
  simp only [List.length_cons]
  omega

/-- C3 (amended): the loop stops with the current record exactly when
`np.allclose` holds between the projected new vector and the pre-step
vector, i.e. when every component of the projected vector is within
`atol + rtol·|pre-step component|` of the pre-step component; otherwise the
projected vector becomes the current vector and iteration continues. A
parameter sitting exactly at its upper bound whose scaled gradient pushes
further outward has projected value equal to its pre-step value, so that
component always passes the convergence test — but convergence of the loop
additionally requires all other components to be within tolerance. -/
theorem C3_convergence_semantics (cfg : AscentConfig) (x : Vec4) (i n : ℕ) :
    (allclose (newParams cfg x) x = true →
      ascentLoop cfg x i (n + 1) = [⟨i, x 0, x 1, moiAt x⟩]) ∧
    (allclose (newParams cfg x) x = false →
      ascentLoop cfg x i (n + 1) =
        ⟨i, x 0, x 1, moiAt x⟩ :: ascentLoop cfg (newParams cfg x) (i + 1) n) ∧
    (allclose (newParams cfg x) x = true ↔
      ∀ j : Fin 4, |newParams cfg x j - x j| ≤ atol + rtol * |x j|) ∧
    (∀ j : Fin 4, x j = (cfg.bounds j).2 → 0 ≤ cfg.learning_rate * gradAt x j →
      newParams cfg x j = x j) := by
  refine ⟨fun hc => ?_, fun hc => ?_, allclose_iff _ _, fun j h1 h2 => ?_⟩
  · rw [ascentLoop_succ, if_pos (by simp [hc])]
  · rw [ascentLoop_succ, if_neg (by simp [hc])]
  · have : (cfg.bounds j).2 ≤ x j + cfg.learning_rate * gradAt x j := by
      rw [← h1]; linarith
    rw [show newParams cfg x j =
        clip (x j + cfg.learning_rate * gradAt x j) (cfg.bounds j).1 (cfg.bounds j).2 from rfl,
      clip_of_hi_le _ _ _ this, h1]

/-- Witness for C3: a converged first step, and a component at its upper
bound kept exactly in place by the projection. -/
theorem C3_convergence_semantics_witness :
    ascentLoop cfg0 zeroVec 0 1 = [⟨0, zeroVec 0, zeroVec 1, moiAt zeroVec⟩] ∧
    newParams cfg0 zeroVec 0 = zeroVec 0 :=
  ⟨(C3_convergence_semantics cfg0 zeroVec 0 0).1 (by with_unfolding_all decide),
   (C3_convergence_semantics cfg0 zeroVec 0 0).2.2.2 0 rfl (by with_unfolding_all decide)⟩

/-- C4: in every iteration the candidate vector is
`current + learning_rate · gradient`, each component is clamped into its
`[min, max]` bound, and only then is the convergence check applied and the
next iteration started from the clamped vector. -/
theorem C4_step_then_project (cfg : AscentConfig) (x : Vec4) (i n : ℕ) :
    (∀ j : Fin 4, newParams cfg x j =
      clip (x j + cfg.learning_rate * gradAt x j) (cfg.bounds j).1 (cfg.bounds j).2) ∧
    (allclose (newParams cfg x) x = false →
      ascentLoop cfg x i (n + 1) =
        ⟨i, x 0, x 1, moiAt x⟩ :: ascentLoop cfg (newParams cfg x) (i + 1) n) := by
  refine ⟨fun j => rfl, fun hc => ?_⟩
  rw [ascentLoop_succ, if_neg (by simp [hc])]

/-- Witness for C4: a non-converged first step continuing from the
projected vector. -/
theorem C4_step_then_project_witness :
    ascentLoop cfgW onesVec 0 1 =
      ⟨0, onesVec 0, onesVec 1, moiAt onesVec⟩ :: ascentLoop cfgW (newParams cfgW onesVec) 1 0 :=
  (C4_step_then_project cfgW onesVec 0 0).2 (by with_unfolding_all decide)

/-- C5 counterexample: starting `run_gradient_ascent`'s loop with an
initial depth of 250, above `DEPTH_MAX = 200`, the very first recorded
iteration contains the unclamped depth 250, which exceeds its bound — so it
is not the case that no recorded parameter value exceeds its bounds. -/
theorem C5_counterexample_first_record_out_of_bounds :
    (ascentLoop defaultConfig ![250, 50, 5, 5] 0 100).get? 0 =
      some ⟨0, 250, 50, moiAt ![250, 50, 5, 5]⟩ ∧
    ¬((250 : ℚ) ≤ (defaultConfig.bounds 0).2) := by
  constructor
  · have h := ascentLoop_get? defaultConfig 100 ![250, 50, 5, 5] 0 0
      (ascentLoop_length_pos _ _ _ _ (by norm_num))
    simpa using h
  · norm_num [defaultConfig]

/-- C5 (amended): starting the optimizer with an initial depth above
`DEPTH_MAX = 200` (other parameters at the source's initial values), the
depth is clamped to exactly 200 by the first projected step, and every
recorded iteration after the first has depth within `[100, 200]` and width
within `[50, 100]`; the first record, however, holds the unclamped initial
values. -/
theorem C5_clamp_and_bounds_after_first_step (d : ℚ) (hd : 200 < d) (fuel : ℕ) :
    newParams defaultConfig ![d, 50, 5, 5] 0 = 200 ∧
    ((ascentLoop defaultConfig ![d, 50, 5, 5] 0 fuel).tail).Forall (fun r =>
      100 ≤ r.depth ∧ r.depth ≤ 200 ∧ 50 ≤ r.width ∧ r.width ≤ 100) := by
  have hwf : ∀ j : Fin 4, (defaultConfig.bounds j).1 ≤ (defaultConfig.bounds j).2 := by
    intro j; fin_cases j <;> norm_num [defaultConfig]
  constructor
  · have hg : 0 ≤ gradAt ![d, 50, 5, 5] 0 := by
      have h0 : gradAt ![d, 50, 5, 5] 0 =
          5 * (d - 2 * 5) ^ 2 / 4 + (50 / 4) * (d ^ 2 - (d - 2 * 5) ^ 2) := by
        show (compute_area_moment_of_inertia_sensitivities d 50 5 5).2 0 = _
        rw [sensitivities_der]
        simp
      rw [h0]
      nlinarith [sq_nonneg (d - 10)]
    have hge : (defaultConfig.bounds 0).2 ≤
        (![d, 50, 5, 5] : Vec4) 0 + defaultConfig.learning_rate * gradAt ![d, 50, 5, 5] 0 := by
      show (200 : ℚ) ≤ d + (1 / 10000) * gradAt ![d, 50, 5, 5] 0
      nlinarith
    exact clip_of_hi_le _ _ _ hge
  · match fuel with
    | 0 => simp [ascentLoop, List.Forall]
    | n + 1 =>
      rw [ascentLoop_succ]
      split
      · simp [List.Forall]
      · have h := ascentLoop_in_bounds defaultConfig hwf n
          (newParams defaultConfig ![d, 50, 5, 5]) 1
          (newParams_in_bounds defaultConfig hwf _)
        simpa [defaultConfig] using h

/-- Witness for C5 (amended) at the concrete initial depth 250 with the
source's full 100-iteration budget. -/
theorem C5_clamp_and_bounds_witness :
    newParams defaultConfig ![250, 50, 5, 5] 0 = 200 ∧
    ((ascentLoop defaultConfig ![250, 50, 5, 5] 0 100).tail).Forall (fun r =>
      100 ≤ r.depth ∧ r.depth ≤ 200 ∧ 50 ≤ r.width ∧ r.width ≤ 100) :=
  C5_clamp_and_bounds_after_first_step 250 (by norm_num) 100

/-- C6: a parameter whose bounds are `[v, v]` and whose initial value is
`v` keeps the exact value `v` in every recorded iteration, whatever its
gradient; stated for the two parameters the source's records expose (depth
and width — web and flange thickness are not recorded at all). -/
theorem C6_fixed_parameter_invariance (cfg : AscentConfig) (x : Vec4) (i fuel : ℕ) (v : ℚ) :
    (cfg.bounds 0 = (v, v) → x 0 = v →
      (ascentLoop cfg x i fuel).Forall (fun r => r.depth = v)) ∧
    (cfg.bounds 1 = (v, v) → x 1 = v →
      (ascentLoop cfg x i fuel).Forall (fun r => r.width = v)) := by
  constructor
  · intro hb hx
    refine ascentLoop_forall cfg (fun y => y 0 = v) _ (fun y hy => ?_)
      (fun _ y hy => hy) fuel x i hx
    show clip (y 0 + cfg.learning_rate * gradAt y 0) (cfg.bounds 0).1 (cfg.bounds 0).2 = v
    rw [hb]
    exact clip_fixed _ v
  · intro hb hx
    refine ascentLoop_forall cfg (fun y => y 1 = v) _ (fun y hy => ?_)
      (fun _ y hy => hy) fuel x i hx
    show clip (y 1 + cfg.learning_rate * gradAt y 1) (cfg.bounds 1).1 (cfg.bounds 1).2 = v
    rw [hb]
    exact clip_fixed _ v

/-- Witness for C6: with the depth bounds fixed at `[100, 100]` and initial
depth 100, every record of a two-iteration run keeps depth exactly 100. -/
theorem C6_fixed_parameter_invariance_witness :
    (ascentLoop cfgF ![100, 50, 5, 5] 0 2).Forall (fun r => r.depth = 100) :=
  (C6_fixed_parameter_invariance cfgF ![100, 50, 5, 5] 0 2 100).1 rfl rfl

/-- C7: the optimizer executes at most its iteration budget and always
terminates; the output is the ordered list of iteration records, exactly
one per executed iteration, where record `k` holds the pre-step parameter
vector of iteration `k` (the `k`-fold projected step from the start) and
the moment of inertia evaluated at it; reaching the cap just ends the list,
with no marker distinguishing exhaustion from convergence. -/
theorem C7_iteration_cap_and_records (cfg : AscentConfig) (x : Vec4) (fuel : ℕ) :
    (ascentLoop cfg x 0 fuel).length ≤ fuel ∧
    ∀ k : ℕ, k < (ascentLoop cfg x 0 fuel).length →
      (ascentLoop cfg x 0 fuel).get? k =
        some ⟨k, (newParams cfg)^[k] x 0, (newParams cfg)^[k] x 1,
          moiAt ((newParams cfg)^[k] x)⟩ := by
  refine ⟨ascentLoop_length_le cfg fuel x 0, fun k hk => ?_⟩
  have h := ascentLoop_get? cfg fuel x 0 k hk
  simpa using h

/-- Witness for C7: a one-iteration run records exactly its initial
pre-step state. -/
theorem C7_iteration_cap_and_records_witness :
    (ascentLoop cfg0 zeroVec 0 1).length ≤ 1 ∧
    (ascentLoop cfg0 zeroVec 0 1).get? 0 = some ⟨0, zeroVec 0, zeroVec 1, moiAt zeroVec⟩ := by
  refine ⟨(C7_iteration_cap_and_records cfg0 zeroVec 1).1, ?_⟩
  have h := (C7_iteration_cap_and_records cfg0 zeroVec 1).2 0
    (ascentLoop_length_pos cfg0 zeroVec 0 1 (by norm_num))
  simpa using h

/-- C8: over the swept depths 100, 110, ..., 200 at width 40 and
thicknesses 5, the computed moment of inertia is strictly increasing in
depth and the sensitivity to depth is strictly positive at every sampled
depth. -/
theorem C8_sweep_monotonicity :
    List.Chain' (· < ·) (sweep_depths.map SweepRow.i_xx) ∧
    (sweep_depths.map SweepRow.sens_depth).Forall (fun v => 0 < v) := by
  have h : sweep_depths = sweepDepthsInput.map (sweepRow 40 5 5) := rfl
  rw [h, sweepDepthsInput_eq]
  simp only [List.map_cons, List.map_nil, sweepRow_i_xx, sweepRow_sens_depth,
    List.chain'_cons, List.chain'_singleton, List.forall_cons, List.Forall,
    compute_area_moment_of_inertia]
  norm_num

/-- C9: the sweep produces exactly one row per input depth, in input order
(row `k` is the computation at depth `k`), and each row's columns are the
depth, the computed moment of inertia, and the four sensitivities aligned
positionally with the parameter order depth, width, t_web, t_flange. -/
theorem C9_sweep_row_alignment (depths : List ℚ) (w tw tf : ℚ) :
    (sweepRows depths w tw tf).length = depths.length ∧
    (∀ k : ℕ, (sweepRows depths w tw tf).get? k = (depths.get? k).map (sweepRow w tw tf)) ∧
    (∀ d : ℚ,
      (sweepRow w tw tf d).depth = d ∧
      (sweepRow w tw tf d).i_xx = (compute_area_moment_of_inertia_sensitivities d w tw tf).1 ∧
      (sweepRow w tw tf d).sens_depth =
        (compute_area_moment_of_inertia_sensitivities d w tw tf).2 0 ∧
      (sweepRow w tw tf d).sens_width =
        (compute_area_moment_of_inertia_sensitivities d w tw tf).2 1 ∧
      (sweepRow w tw tf d).sens_t_web =
        (compute_area_moment_of_inertia_sensitivities d w tw tf).2 2 ∧
      (sweepRow w tw tf d).sens_t_flange =
        (compute_area_moment_of_inertia_sensitivities d w tw tf).2 3) := by
  refine ⟨by simp [sweepRows], fun k => ?_, fun d => ⟨rfl, rfl, rfl, rfl, rfl, rfl⟩⟩
  simp [sweepRows, List.get?_eq_getElem?, List.getElem?_map]

/-- C10: with any positive iteration budget the optimizer records at least
one iteration, and the first record holds the initial parameter values
exactly as supplied, with no projection applied — an out-of-bounds initial
value appears unclamped in the first recorded row. -/
theorem C10_first_record_unclamped (cfg : AscentConfig) (x : Vec4) (fuel : ℕ)
    (hf : 1 ≤ fuel) :
    0 < (ascentLoop cfg x 0 fuel).length ∧
    (ascentLoop cfg x 0 fuel).get? 0 = some ⟨0, x 0, x 1, moiAt x⟩ := by
  have hp := ascentLoop_length_pos cfg x 0 fuel hf
  refine ⟨hp, ?_⟩
  have h := ascentLoop_get? cfg fuel x 0 0 hp
  simpa using h

/-- Witness for C10: the source's loop started at the out-of-bounds depth
250 records 250 itself, unclamped, in its first row. -/
theorem C10_first_record_unclamped_witness :
    0 < (ascentLoop defaultConfig ![250, 50, 5, 5] 0 100).length ∧
    (ascentLoop defaultConfig ![250, 50, 5, 5] 0 100).get? 0 =
      some ⟨0, 250, 50, moiAt ![250, 50, 5, 5]⟩ := by
  have h := C10_first_record_unclamped defaultConfig ![250, 50, 5, 5] 100 (by norm_num)
  simpa using h

end AutodiffExample
